import Mathlib

/-!
Shallow embedding of the `skeleton` Go package (termkit/skeleton): the
refresh-notification bus (`Updater`), the tab/page registry with its locking
and navigation state machine (`Skeleton` / `header`), and the compositor's
placeholder logic (`View`).

Conventions of the embedding:
* Go channels become explicit message queues (`List Msg`), with the channel
  capacity checked on send.
* Go maps used as sets (`map[string]bool` holding only `true` values) become
  deduplicated `List String` with membership lookup.
* Go `int` fields that only ever hold non-negative values in the program
  (tab indices) are modelled as `Nat`; viewport dimensions, which arrive
  from arbitrary resize events, stay `Int`.
* Pages (`tea.Model`) are opaque external state machines per the design:
  they are modelled as bare identifiers whose `Update` is the identity and
  contributes no commands; no theorem below depends on page behaviour.
* The lipgloss string rendering is an excluded external collaborator, so
  `View` returns a small algebraic datatype: the literal placeholder strings
  of the source in the early-return branches, and a `composed` constructor
  (carrying the data the source lays out) for the full layout branch.
* The process-wide viewport singleton shared by `Skeleton` and `header` is
  a single `Viewport` value threaded through the header operations; the
  process-wide `Updater` singleton shared by both is a single `Updater`
  value threaded likewise.
-/

namespace Skel

/-- Opaque page model (`tea.Model`); pages are black boxes identified here
by a numeric id. -/
structure Page where
  id : Nat
deriving Repr, DecidableEq, Inhabited

/-- Which key binding a `tea.KeyMsg` matches (the key-map source file is
not in the repository snapshot; only the matched binding is relevant). -/
inductive KeyType where
  | quit
  | switchTabLeft
  | switchTabRight
  | otherKey
deriving Repr, DecidableEq

/-- The messages the program routes: `tea.WindowSizeMsg`, `tea.KeyMsg`,
`AddPageMsg`, `UpdateMsg`, `HeaderSizeMsg`, `WidgetSizeMsg`, `IAMActivePage`,
and arbitrary other payloads (tagged). -/
inductive Msg where
  | windowSize (width height : Int)
  | key (k : KeyType)
  | addPageMsg (key title : String) (page : Page)
  | updateMsg
  | headerSize (notEnoughToHandleHeaders : Bool)
  | widgetSize (notEnoughToHandleWidgets : Bool)
  | iamActivePage
  | otherMsg (tag : Nat)
deriving Repr, DecidableEq

/-- The commands (`tea.Cmd`) the modelled code returns to the host loop. -/
inductive Cmd where
  | quit
  | iamActivePage
  | emitHeaderSize (notEnoughToHandleHeaders : Bool)
  | emitWidgetSize (notEnoughToHandleWidgets : Bool)
  | listen
  | pageInit (page : Page)
deriving Repr, DecidableEq

/-! ### Updater (refresh bus), from `updater.go` -/

/-- `Updater`: the refresh bus. `rcv` models the buffered channel
`chan any` (front of the list = oldest pending message); `listening` is the
single-listener guard flag. -/
structure Updater where
  rcv : List Msg
  listening : Bool
deriving Repr, DecidableEq

/-- Capacity of the `rcv` channel: `make(chan any, 256)`. -/
def updaterChannelCapacity : Nat := 256

/-- The updater as first created by `NewUpdater` (empty channel, not
listening). -/
def NewUpdater : Updater := { rcv := [], listening := false }

/-- Non-blocking send on the channel: enqueue if below capacity, otherwise
drop the message and leave the channel unchanged (the `select`/`default`
in `Update`/`UpdateWithMsg`). -/
def Updater.send (u : Updater) (m : Msg) : Updater :=
  if u.rcv.length < updaterChannelCapacity then { u with rcv := u.rcv ++ [m] } else u

/-- `Updater.Update`: non-blocking send of `UpdateMsgInstance`. -/
def Updater.Update (u : Updater) : Updater := u.send .updateMsg

/-- `Updater.UpdateWithMsg`: non-blocking send of an arbitrary payload. -/
def Updater.UpdateWithMsg (u : Updater) (m : Msg) : Updater := u.send m

/-- `Updater.Listen`: if the guard is already set, return `nil` (modelled
as `false`: no waiting command was produced); otherwise set the guard and
return the waiting command (`true`). -/
def Updater.Listen (u : Updater) : Updater × Bool :=
  if u.listening then (u, false) else ({ u with listening := true }, true)

/-- Resolution of the waiting command returned by `Listen`: block until a
message is available (`none` when the channel is empty models "still
blocked"), then drop the guard and deliver the received message.  In the
source the guard is cleared after the receive and before the message is
returned, so the delivered message comes paired with the
already-released state. -/
def Updater.resolve (u : Updater) : Option (Msg × Updater) :=
  match u.rcv with
  | [] => none
  | m :: rest => some (m, { rcv := rest, listening := false })

/-- One producer-side call on the bus: `Update()` (bare signal) or
`UpdateWithMsg(msg)`. -/
inductive SignalOp where
  | signal
  | signalWithPayload (m : Msg)
deriving Repr, DecidableEq

/-- Apply one producer call. -/
def Updater.applySignal (u : Updater) : SignalOp → Updater
  | .signal => u.Update
  | .signalWithPayload m => u.UpdateWithMsg m

/-- Apply a sequence of producer calls, oldest first. -/
def Updater.applySignals (u : Updater) (ops : List SignalOp) : Updater :=
  ops.foldl Updater.applySignal u

/-! ### Viewport and header, from `skeleton.go` / the header file -/

/-- The process-wide terminal viewport (`viewport.Model`, only `Width` and
`Height` are used by the modelled code). -/
structure Viewport where
  width : Int
  height : Int
deriving Repr, DecidableEq

/-- `newTerminalViewport`: default 80x24. -/
def newTerminalViewport : Viewport := { width := 80, height := 24 }

/-- `commonHeader`: one tab descriptor (key, title). -/
structure CommonHeader where
  key : String
  title : String
deriving Repr, DecidableEq

instance : Inhabited CommonHeader := ⟨⟨"", ""⟩⟩

/-- The layout-relevant header properties (`headerProperties`); the
lipgloss styles are external rendering state and carry no layout data
beyond the paddings already recorded here. -/
structure HeaderProperties where
  borderColor : String
  leftTabPadding : Int
  rightTabPadding : Int
deriving Repr, DecidableEq

/-- `defaultHeaderProperties`. -/
def defaultHeaderProperties : HeaderProperties :=
  { borderColor := "39", leftTabPadding := 2, rightTabPadding := 2 }

/-- `header`: tab headers, current index, lock set, cached title length.
`lockedTabs` models `map[string]bool` (only `true` values are ever stored):
a deduplicated list of locked keys. -/
structure Header where
  termReady : Bool
  currentTab : Nat
  headers : List CommonHeader
  properties : HeaderProperties
  titleLength : Int
  lockedTabs : List String
deriving Repr, DecidableEq

/-- `newHeader`. -/
def newHeader : Header :=
  { termReady := false, currentTab := 0, headers := [],
    properties := defaultHeaderProperties, titleLength := 0, lockedTabs := [] }

/-- The sum computed by `calculateTitleLength`: for each header, the rune
length of its title plus left/right tab padding plus 2 for the border
between titles. -/
def Header.titleLen (h : Header) : Int :=
  h.headers.foldl
    (fun acc hdr =>
      acc + (hdr.title.length : Int)
        + h.properties.leftTabPadding + h.properties.rightTabPadding + 2)
    0

/-- `header.calculateTitleLength`: store the recomputed title length and
return the `HeaderSizeMsg` field value the emitted command carries
(`NotEnoughToHandleHeaders` is `false` exactly when
`viewport.Width - (titleLen + 2) < 0`; the field name is inverted in the
source: `true` means the headers fit). -/
def Header.calculateTitleLength (h : Header) (vp : Viewport) : Header × Bool :=
  let titleLen := h.titleLen
  ({ h with titleLength := titleLen }, decide (0 ≤ vp.width - (titleLen + 2)))

/-- `header.IsTabLocked`: membership in the individual lock set only. -/
def Header.IsTabLocked (h : Header) (key : String) : Bool :=
  key ∈ h.lockedTabs

/-- `header.LockTab`: add the key to the lock set (map write, idempotent)
and signal the bus. -/
def Header.LockTab (h : Header) (u : Updater) (key : String) : Header × Updater :=
  ({ h with lockedTabs := if key ∈ h.lockedTabs then h.lockedTabs else h.lockedTabs ++ [key] },
   u.Update)

/-- `header.UnlockTab`: delete the key from the lock set and signal the
bus. -/
def Header.UnlockTab (h : Header) (u : Updater) (key : String) : Header × Updater :=
  ({ h with lockedTabs := h.lockedTabs.filter (fun k => k ≠ key) }, u.Update)

/-- `header.SetLockTabs`: on `true`, `LockTab` every currently registered
header key; on `false`, reset the lock set to a fresh empty map; then
signal the bus. -/
def Header.SetLockTabs (h : Header) (u : Updater) (lock : Bool) : Header × Updater :=
  if lock then
    let p := h.headers.foldl (fun (p : Header × Updater) hdr => p.1.LockTab p.2 hdr.key) (h, u)
    (p.1, p.2.Update)
  else
    ({ h with lockedTabs := [] }, u.Update)

/-- `header.GetLockTabs`: every registered tab is individually locked. -/
def Header.GetLockTabs (h : Header) : Bool :=
  h.headers.all (fun hdr => h.IsTabLocked hdr.key)

/-- `header.SetCurrentTab`. -/
def Header.SetCurrentTab (h : Header) (tab : Nat) : Header :=
  { h with currentTab := tab }

/-- `header.AddCommonHeader`: append the descriptor, recompute the title
length (the emitted command is discarded by the source), signal the bus. -/
def Header.AddCommonHeader (h : Header) (vp : Viewport) (u : Updater)
    (key title : String) : Header × Updater :=
  let h := { h with headers := h.headers ++ [CommonHeader.mk key title] }
  ((h.calculateTitleLength vp).1, u.Update)

/-- `header.UpdateCommonHeader`: retitle every header with the key,
recompute the title length, signal the bus. -/
def Header.UpdateCommonHeader (h : Header) (vp : Viewport) (u : Updater)
    (key title : String) : Header × Updater :=
  let h := { h with
    headers := h.headers.map
      (fun (hdr : CommonHeader) => if hdr.key = key then { hdr with title := title } else hdr) }
  ((h.calculateTitleLength vp).1, u.Update)

/-- `header.DeleteCommonHeader`: remove the headers with the key (the
source's removal loop removes each match; with the unique keys `AddPage`
guarantees, at most one), recompute the title length, signal the bus. -/
def Header.DeleteCommonHeader (h : Header) (vp : Viewport) (u : Updater)
    (key : String) : Header × Updater :=
  let h := { h with headers := h.headers.filter (fun hdr => hdr.key ≠ key) }
  ((h.calculateTitleLength vp).1, u.Update)

/-- `header.Update` (the `tea.Model` update): on `WindowSizeMsg`, set
`termReady` once both dimensions are positive, write the shared viewport,
recompute the title length twice (the source calls it once discarding the
command and once keeping it) and emit the `HeaderSizeMsg` command. -/
def Header.teaUpdate (h : Header) (vp : Viewport) (msg : Msg) :
    Header × Viewport × List Cmd :=
  match msg with
  | .windowSize w ht =>
    let h := if !h.termReady && w > 0 && ht > 0 then { h with termReady := true } else h
    let vp := { width := w, height := ht }
    let h := (h.calculateTitleLength vp).1
    let p := h.calculateTitleLength vp
    (p.1, vp, [Cmd.emitHeaderSize p.2])
  | _ => (h, vp, [])

/-! ### Skeleton (controller + registry), from `skeleton.go` -/

/-- The layout-relevant skeleton properties (`skeletonProperties`); the
page position is external lipgloss alignment state and is omitted. -/
structure SkeletonProperties where
  borderColor : String
deriving Repr, DecidableEq

/-- `defaultSkeletonProperties`. -/
def defaultSkeletonProperties : SkeletonProperties := { borderColor := "39" }

/-- `Skeleton`: the top-level controller state.  `widgets` stands for the
footer component's entry list (`s.widget.widgets`); the widget source file
is not in the repository snapshot and only its entry count is read by the
modelled code. -/
structure Skeleton where
  termReady : Bool
  termSizeNotEnoughToHandleHeaders : Bool
  termSizeNotEnoughToHandleWidgets : Bool
  lockTabs : Bool
  currentTab : Nat
  header : Header
  widgets : List (String × String)
  pages : List Page
  properties : SkeletonProperties
  updater : Updater
  viewport : Viewport
deriving Repr, DecidableEq

/-- `NewSkeleton` (with the process-wide viewport and updater singletons in
their initial state). -/
def NewSkeleton : Skeleton :=
  { termReady := false, termSizeNotEnoughToHandleHeaders := false,
    termSizeNotEnoughToHandleWidgets := false, lockTabs := false,
    currentTab := 0, header := newHeader, widgets := [], pages := [],
    properties := defaultSkeletonProperties, updater := NewUpdater,
    viewport := newTerminalViewport }

/-- `Skeleton.IsTabsLocked`: the global lock flag. -/
def Skeleton.IsTabsLocked (s : Skeleton) : Bool := s.lockTabs

/-- `Skeleton.IsTabLocked`: delegates to the header's individual lock
set. -/
def Skeleton.IsTabLocked (s : Skeleton) (key : String) : Bool :=
  s.header.IsTabLocked key

/-- `Skeleton.LockTab`. -/
def Skeleton.LockTab (s : Skeleton) (key : String) : Skeleton :=
  let p := s.header.LockTab s.updater key
  { s with header := p.1, updater := p.2.Update }

/-- `Skeleton.UnlockTab`. -/
def Skeleton.UnlockTab (s : Skeleton) (key : String) : Skeleton :=
  let p := s.header.UnlockTab s.updater key
  { s with header := p.1, updater := p.2.Update }

/-- `Skeleton.LockTabs` (lock everything): individually lock every
registered tab via the header, set the global flag, signal the bus. -/
def Skeleton.LockTabs (s : Skeleton) : Skeleton :=
  let p := s.header.SetLockTabs s.updater true
  { s with header := p.1, lockTabs := true, updater := p.2.Update }

/-- `Skeleton.UnlockTabs` (unlock everything): reset the header lock set,
clear the global flag, then redundantly `UnlockTab` every registered key,
and signal the bus. -/
def Skeleton.UnlockTabs (s : Skeleton) : Skeleton :=
  let p := s.header.SetLockTabs s.updater false
  let s := { s with header := p.1, lockTabs := false, updater := p.2 }
  let s := s.header.headers.foldl (fun s hdr => s.UnlockTab hdr.key) s
  { s with updater := s.updater.Update }

/-- `Skeleton.AddPage`: silently rejected when the key already exists;
otherwise append the header descriptor and the page and enqueue an
`AddPageMsg` payload on the bus. -/
def Skeleton.AddPage (s : Skeleton) (key title : String) (page : Page) : Skeleton :=
  if s.header.headers.any (fun hdr => hdr.key = key) then s
  else
    let p := s.header.AddCommonHeader s.viewport s.updater key title
    let s := { s with header := p.1, pages := s.pages ++ [page], updater := p.2 }
    { s with updater := s.updater.UpdateWithMsg (.addPageMsg key title page) }

/-- `Skeleton.UpdatePageTitle`. -/
def Skeleton.UpdatePageTitle (s : Skeleton) (key title : String) : Skeleton :=
  let p := s.header.UpdateCommonHeader s.viewport s.updater key title
  { s with header := p.1, updater := p.2.Update }

/-- `Skeleton.GetActivePage`: `s.header.headers[s.currentTab].key`; the Go
indexing panics out of range, modelled as `none`. -/
def Skeleton.GetActivePage (s : Skeleton) : Option String :=
  (s.header.headers.get? s.currentTab).map CommonHeader.key

/-- `Skeleton.DeletePage`: no-op when only one page remains; reset the
active index to 0 when the active tab is being deleted; drop the pages
whose same-index header carries the key; delete the header; signal the
bus. -/
def Skeleton.DeletePage (s : Skeleton) (key : String) : Skeleton :=
  if s.pages.length = 1 then s
  else
    let s := if s.GetActivePage = some key
             then { s with currentTab := 0, header := s.header.SetCurrentTab 0 }
             else s
    let pages := ((s.pages.zip s.header.headers).filter (fun ph => ph.2.key ≠ key)).map Prod.fst
    let p := s.header.DeleteCommonHeader s.viewport s.updater key
    { s with header := p.1, pages := pages, updater := p.2.Update }

/-- `Skeleton.SetActivePage`: first matching index, if any. -/
def Skeleton.SetActivePage (s : Skeleton) (key : String) : Skeleton :=
  match s.header.headers.findIdx? (fun hdr => hdr.key = key) with
  | some i =>
    { s with currentTab := i, header := s.header.SetCurrentTab i, updater := s.updater.Update }
  | none => s

/-- The `"left"` scan of `switchPage`: for
`nextTab := currentTab - 1; nextTab >= 0; nextTab--`, the first index whose
header key is not individually locked. -/
def Header.findUnlockedLeft (hd : Header) : Nat → Option Nat
  | 0 => none
  | j + 1 =>
    if !hd.IsTabLocked (hd.headers.getD j default).key then some j
    else hd.findUnlockedLeft j

/-- The `"right"` scan of `switchPage`: for
`nextTab := start; nextTab < bound; nextTab++`, the first index whose
header key is not individually locked (`bound` is `len(s.pages)`). -/
def Header.findUnlockedRight (hd : Header) (bound start : Nat) : Option Nat :=
  if _h : start < bound then
    if !hd.IsTabLocked (hd.headers.getD start default).key then some start
    else hd.findUnlockedRight bound (start + 1)
  else none
termination_by bound - start

/-- `Skeleton.switchPage`: no-op when the global lock is set; otherwise
scan left/right from the current index for the nearest tab that is not
individually locked, move there and append the `IAMActivePage` command;
leave everything unchanged when the scan finds none or the position string
is unrecognized. -/
def Skeleton.switchPage (s : Skeleton) (cmds : List Cmd) (position : String) :
    Skeleton × List Cmd :=
  if s.IsTabsLocked then (s, cmds)
  else if position = "left" then
    match s.header.findUnlockedLeft s.currentTab with
    | some n =>
      ({ s with currentTab := n, header := s.header.SetCurrentTab n },
       cmds ++ [Cmd.iamActivePage])
    | none => (s, cmds)
  else if position = "right" then
    match s.header.findUnlockedRight s.pages.length (s.currentTab + 1) with
    | some n =>
      ({ s with currentTab := n, header := s.header.SetCurrentTab n },
       cmds ++ [Cmd.iamActivePage])
    | none => (s, cmds)
  else (s, cmds)

/-- `Skeleton.LockTabsToTheRight`. -/
def Skeleton.LockTabsToTheRight (s : Skeleton) : Skeleton :=
  if s.header.headers.length ≤ s.currentTab + 1 then s
  else
    let s := ((s.header.headers.drop (s.currentTab + 1)).foldl
      (fun s hdr => s.LockTab hdr.key) s)
    { s with updater := s.updater.Update }

/-- `Skeleton.LockTabsToTheLeft`. -/
def Skeleton.LockTabsToTheLeft (s : Skeleton) : Skeleton :=
  if s.currentTab = 0 then s
  else
    let s := ((s.header.headers.take s.currentTab).foldl
      (fun s hdr => s.LockTab hdr.key) s)
    { s with updater := s.updater.Update }

/-- Modelled from the spec: the widget component's own width-fit check
(the widget source file is not in the repository snapshot); it emits the
`WidgetSizeMsg` fit signal on resize.  No theorem below depends on the
exact formula. -/
def widgetsFit (width : Int) (ws : List (String × String)) : Bool :=
  decide ((ws.foldl (fun acc w => acc + (w.2.length : Int) + 2) 0) + 2 ≤ width)

/-- Modelled from the spec: the widget component's `Update`, emitting its
`WidgetSizeMsg` command on resize and nothing otherwise. -/
def widgetTeaUpdate (ws : List (String × String)) (msg : Msg) : List Cmd :=
  match msg with
  | .windowSize w _ => [Cmd.emitWidgetSize (widgetsFit w ws)]
  | _ => []

/-- `Skeleton.updateSkeleton`: forward the message to the header, the
widget bar and the active page, collecting their commands.  Pages are
opaque external models; their update contributes no modelled state change
or command. -/
def Skeleton.updateSkeleton (s : Skeleton) (msg : Msg) (cmds : List Cmd) :
    Skeleton × List Cmd :=
  let t := s.header.teaUpdate s.viewport msg
  ({ s with header := t.1, viewport := t.2.1 },
   cmds ++ t.2.2 ++ widgetTeaUpdate s.widgets msg)

/-- `Skeleton.Update` (the controller's `tea.Model` update): route the
message per the source's switch, returning the new state and the command
list. -/
def Skeleton.teaUpdate (s : Skeleton) (msg : Msg) : Skeleton × List Cmd :=
  let s := { s with currentTab := s.header.currentTab }
  match msg with
  | .windowSize w ht =>
    let s := if !s.termReady && w > 0 && ht > 0 then { s with termReady := true } else s
    let s := { s with viewport := { width := w, height := ht } }
    s.updateSkeleton msg []
  | .key k =>
    match k with
    | .quit => (s, [Cmd.quit])
    | .switchTabLeft =>
      let p := s.switchPage [] "left"
      p.1.updateSkeleton msg p.2
    | .switchTabRight =>
      let p := s.switchPage [] "right"
      p.1.updateSkeleton msg p.2
    | .otherKey => s.updateSkeleton msg []
  | .addPageMsg _ _ page =>
    let p := s.updateSkeleton msg [Cmd.pageInit page]
    let l := p.1.updater.Listen
    ({ p.1 with updater := l.1 }, p.2 ++ if l.2 then [Cmd.listen] else [])
  | .updateMsg =>
    let p := s.updateSkeleton msg []
    let l := p.1.updater.Listen
    ({ p.1 with updater := l.1 }, p.2 ++ if l.2 then [Cmd.listen] else [])
  | .headerSize b => ({ s with termSizeNotEnoughToHandleHeaders := b }, [])
  | .widgetSize b => ({ s with termSizeNotEnoughToHandleWidgets := b }, [])
  | _ =>
    let p := s.updateSkeleton msg []
    let l := p.1.updater.Listen
    ({ p.1 with updater := l.1 }, p.2 ++ if l.2 then [Cmd.listen] else [])

/-- The result of `Skeleton.View`: either one of the literal placeholder
strings the source returns early, or the composed layout (whose lipgloss
string assembly is external); `composed` records the active page and the
computed body height. -/
inductive ViewOut where
  | text (msg : String)
  | composed (page : Option Page) (bodyHeight : Int)
deriving Repr, DecidableEq

/-- `Skeleton.View`: the placeholder ladder, then the composed layout. -/
def Skeleton.View (s : Skeleton) : ViewOut :=
  if !s.termReady then .text "setting up terminal..."
  else if !s.termSizeNotEnoughToHandleHeaders then
    .text "terminal size is not enough to show headers"
  else if !s.termSizeNotEnoughToHandleWidgets then
    .text "terminal size is not enough to show widgets"
  else
    let bodyHeight := s.viewport.height - 5 - (if 0 < s.widgets.length then 1 else 0)
    .composed (s.pages.get? s.currentTab) bodyHeight

/-- Process a list of controller messages in order, discarding commands. -/
def Skeleton.processAll (s : Skeleton) (msgs : List Msg) : Skeleton :=
  msgs.foldl (fun s m => (s.teaUpdate m).1) s

/-! ### Derived notions used by the claims -/

/-- Spec notion: a tab is effectively locked when the global flag is set or
its key is in the individual lock set. -/
def Skeleton.EffectivelyLocked (s : Skeleton) (key : String) : Bool :=
  s.lockTabs || s.header.IsTabLocked key

/-- The key of the tab at an index (default descriptor out of range, as in
the scans). -/
def Skeleton.keyAt (s : Skeleton) (i : Nat) : String :=
  (s.header.headers.getD i default).key

/-- A registry operation for the add/delete sequences of the claims. -/
inductive RegOp where
  | add (key title : String) (page : Page)
  | del (key : String)
deriving Repr, DecidableEq

/-- Apply one registry operation. -/
def Skeleton.applyRegOp (s : Skeleton) : RegOp → Skeleton
  | .add key title page => s.AddPage key title page
  | .del key => s.DeletePage key

/-- Apply a sequence of registry operations, oldest first. -/
def Skeleton.applyRegOps (s : Skeleton) (ops : List RegOp) : Skeleton :=
  ops.foldl Skeleton.applyRegOp s

/-- The structural well-formedness the code maintains: one page per header
and pairwise-distinct tab keys. -/
def Skeleton.WellFormed (s : Skeleton) : Prop :=
  s.pages.length = s.header.headers.length ∧ (s.header.headers.map CommonHeader.key).Nodup

/-! ### Basic lemmas about the bus -/

theorem Updater.length_send_le (u : Updater) (m : Msg)
    (h : u.rcv.length ≤ updaterChannelCapacity) :
    (u.send m).rcv.length ≤ updaterChannelCapacity := by
  unfold Updater.send
  split
  · simpa using ‹u.rcv.length < updaterChannelCapacity›
  · exact h

theorem Updater.length_applySignal_le (u : Updater) (op : SignalOp)
    (h : u.rcv.length ≤ updaterChannelCapacity) :
    (u.applySignal op).rcv.length ≤ updaterChannelCapacity := by
  cases op <;>
    exact u.length_send_le _ h

theorem Updater.send_full (u : Updater) (m : Msg)
    (h : u.rcv.length = updaterChannelCapacity) : (u.send m).rcv = u.rcv := by
  unfold Updater.send
  split
  · omega
  · rfl

/-- Claim C1: `Signal()`/`SignalWithPayload(payload)` never block (they are
total operations on the bus state); when the channel already holds its
fixed capacity of pending entries, a call leaves the channel contents
unchanged, and no sequence of producer calls ever pushes the number of
pending entries beyond the fixed capacity. -/
theorem c1_signal_coalescing_bounded (u : Updater) (ops : List SignalOp)
    (hcap : u.rcv.length ≤ updaterChannelCapacity) :
    (u.applySignals ops).rcv.length ≤ updaterChannelCapacity ∧
    (u.rcv.length = updaterChannelCapacity →
      ∀ op : SignalOp, (u.applySignal op).rcv = u.rcv) := by
  constructor
  · induction ops generalizing u with
    | nil => exact hcap
    | cons op rest ih =>
      exact ih (u.applySignal op) (u.length_applySignal_le op hcap)
  · intro hfull op
    cases op <;> exact u.send_full _ hfull

/-- Witness for C1: the fresh bus satisfies the capacity hypothesis, and a
burst of signals on it never exceeds the capacity. -/
theorem c1_witness :
    (NewUpdater.applySignals [SignalOp.signal, SignalOp.signal]).rcv.length
        ≤ updaterChannelCapacity ∧
    (NewUpdater.rcv.length = updaterChannelCapacity →
      ∀ op : SignalOp, (NewUpdater.applySignal op).rcv = NewUpdater.rcv) :=
  c1_signal_coalescing_bounded NewUpdater [SignalOp.signal, SignalOp.signal]
    (by decide)

/-- Claim C4: `Subscribe()` (`Listen`) while a previous subscription is
outstanding is a no-op that yields nothing; and whenever it does yield a
waiting command, the guard was clear and is set afterwards, so at most one
outstanding wait exists at a time. -/
theorem c4_subscribe_single_listener (u : Updater) :
    (u.listening = true → u.Listen = (u, false)) ∧
    ((u.Listen).2 = true → u.listening = false ∧ (u.Listen).1.listening = true) := by
  constructor
  · intro h
    simp [Updater.Listen, h]
  · intro h
    unfold Updater.Listen at *
    by_cases hl : u.listening
    · simp [hl] at h
    · simp [hl]

/-- Witness for C4: on a concretely already-listening bus, `Listen` is a
no-op yielding nothing. -/
theorem c4_witness :
    (Updater.mk [] true).Listen = (Updater.mk [] true, false) :=
  (c4_subscribe_single_listener (Updater.mk [] true)).1 rfl

/-- Claim C5: when the `Subscribe()` suspension resolves on a pending
signal, the delivered message comes with the guard already released, a
subsequent `Listen` succeeds (returns a new waiting command), and the
controller's handling of the drained refresh signal re-issues the
subscription (`Cmd.listen` is among the returned commands). -/
theorem c5_resubscribe_after_drain (u : Updater) (m : Msg) (rest : List Msg)
    (h : u.rcv = m :: rest) :
    u.resolve = some (m, Updater.mk rest false) ∧
    (Updater.mk rest false).Listen = (Updater.mk rest true, true) ∧
    ∀ s : Skeleton, s.updater = Updater.mk rest false →
      Cmd.listen ∈ (s.teaUpdate .updateMsg).2 := by
  refine ⟨by simp [Updater.resolve, h], by simp [Updater.Listen], ?_⟩
  intro s hs
  simp [Skeleton.teaUpdate, Skeleton.updateSkeleton, Header.teaUpdate,
    widgetTeaUpdate, hs, Updater.Listen]

/-- Witness for C5: a concrete bus holding one pending signal resolves to
the released guard, and a concrete controller owning the resolved bus
re-issues the subscription on the drained signal. -/
theorem c5_witness :
    (Updater.mk [Msg.updateMsg] true).resolve
        = some (Msg.updateMsg, Updater.mk [] false) ∧
    Cmd.listen ∈
      (({ NewSkeleton with updater := Updater.mk [] false } : Skeleton).teaUpdate
        .updateMsg).2 := by
  have h := c5_resubscribe_after_drain (Updater.mk [Msg.updateMsg] true)
    Msg.updateMsg [] rfl
  exact ⟨h.1, h.2.2 _ rfl⟩

/-! ### Lock-state lemmas -/

theorem unlockTab_fold_lockedTabs_nil (hdrs : List CommonHeader) :
    ∀ s : Skeleton, s.header.lockedTabs = [] →
      ((hdrs.foldl (fun s hdr => s.UnlockTab hdr.key) s)).header.lockedTabs = [] := by
  induction hdrs with
  | nil => intro s h; exact h
  | cons hd tl ih =>
    intro s h
    exact ih _ (by simp [Skeleton.UnlockTab, Header.UnlockTab, h])

theorem unlockTab_fold_lockTabs (hdrs : List CommonHeader) :
    ∀ s : Skeleton,
      ((hdrs.foldl (fun s hdr => s.UnlockTab hdr.key) s)).lockTabs = s.lockTabs := by
  induction hdrs with
  | nil => intro s; rfl
  | cons hd tl ih =>
    intro s
    rw [List.foldl_cons, ih]
    rfl

/-- Claim C7: after `UnlockTabs`, the global lock flag is cleared and the
individual lock set is empty, so every key (registered or not) reports
unlocked through `IsTabLocked` and through the spec's effectively-locked
notion, whatever lock calls preceded. -/
theorem c7_unlock_all_clears (s : Skeleton) :
    (s.UnlockTabs).lockTabs = false ∧
    (s.UnlockTabs).header.lockedTabs = [] ∧
    ∀ key : String, (s.UnlockTabs).IsTabLocked key = false ∧
      (s.UnlockTabs).EffectivelyLocked key = false := by
  have hnil : (s.UnlockTabs).header.lockedTabs = [] := by
    unfold Skeleton.UnlockTabs
    exact unlockTab_fold_lockedTabs_nil _ _ (by simp [Header.SetLockTabs])
  have hflag : (s.UnlockTabs).lockTabs = false := by
    unfold Skeleton.UnlockTabs
    rw [show ∀ t : Skeleton, ({ t with updater := t.updater.Update } : Skeleton).lockTabs
          = t.lockTabs from fun _ => rfl]
    exact unlockTab_fold_lockTabs _ _
  refine ⟨hflag, hnil, fun key => ⟨?_, ?_⟩⟩
  · simp [Skeleton.IsTabLocked, Header.IsTabLocked, hnil]
  · simp [Skeleton.EffectivelyLocked, Header.IsTabLocked, hnil, hflag]

/-! ### Registry lemmas (add/delete) -/

theorem addPage_of_dup (s : Skeleton) (key title : String) (p : Page)
    (h : key ∈ s.header.headers.map CommonHeader.key) :
    s.AddPage key title p = s := by
  unfold Skeleton.AddPage
  rw [if_pos]
  simp only [List.any_eq_true, decide_eq_true_eq]
  obtain ⟨hdr, hmem, hkeq⟩ := List.mem_map.mp h
  exact ⟨hdr, hmem, hkeq⟩

theorem addPage_headers (s : Skeleton) (key title : String) (p : Page)
    (h : ¬ key ∈ s.header.headers.map CommonHeader.key) :
    (s.AddPage key title p).header.headers
        = s.header.headers ++ [CommonHeader.mk key title] ∧
    (s.AddPage key title p).pages = s.pages ++ [p] := by
  unfold Skeleton.AddPage
  rw [if_neg]
  · exact ⟨rfl, rfl⟩
  · simp only [List.any_eq_true, decide_eq_true_eq]
    rintro ⟨hdr, hmem, hkeq⟩
    exact h (hkeq ▸ List.mem_map_of_mem CommonHeader.key hmem)

theorem addPage_nodup (s : Skeleton) (key title : String) (p : Page)
    (h : (s.header.headers.map CommonHeader.key).Nodup) :
    ((s.AddPage key title p).header.headers.map CommonHeader.key).Nodup := by
  by_cases hdup : key ∈ s.header.headers.map CommonHeader.key
  · rw [addPage_of_dup s key title p hdup]
    exact h
  · rw [(addPage_headers s key title p hdup).1]
    simp only [List.map_append, List.map_cons, List.map_nil]
    simp [List.nodup_append, h, hdup]

theorem addPage_preserves (s : Skeleton) (key title : String) (p : Page)
    (hwf : s.WellFormed) (hlen : 1 ≤ s.pages.length) :
    (s.AddPage key title p).WellFormed ∧ 1 ≤ (s.AddPage key title p).pages.length := by
  by_cases hdup : key ∈ s.header.headers.map CommonHeader.key
  · rw [addPage_of_dup s key title p hdup]
    exact ⟨hwf, hlen⟩
  · obtain ⟨hh, hp⟩ := addPage_headers s key title p hdup
    refine ⟨⟨?_, addPage_nodup s key title p hwf.2⟩, ?_⟩
    · rw [hh, hp]
      simp [hwf.1]
    · rw [hp]
      simp

theorem zip_filter_key_length (ps : List Page) (hs : List CommonHeader) (key : String)
    (h : ps.length = hs.length) :
    (((ps.zip hs).filter (fun ph => ph.2.key ≠ key)).map Prod.fst).length
      = (hs.filter (fun hdr => hdr.key ≠ key)).length := by
  induction ps generalizing hs with
  | nil =>
    cases hs with
    | nil => simp
    | cons hd tl => simp at h
  | cons p ps ih =>
    cases hs with
    | nil => simp at h
    | cons hd tl =>
      simp only [List.length_cons, Nat.succ.injEq] at h
      have ihh := ih tl h
      simp only [List.zip_cons_cons, List.filter_cons, ne_eq, decide_not] at ihh ⊢
      by_cases hk : hd.key = key
      · simp [hk, ihh]
      · simp [hk, ihh]

theorem length_filter_key_ge (hs : List CommonHeader) (key : String)
    (hnd : (hs.map CommonHeader.key).Nodup) :
    hs.length - 1 ≤ (hs.filter (fun hdr => hdr.key ≠ key)).length := by
  induction hs with
  | nil => simp
  | cons hd tl ih =>
    simp only [List.map_cons, List.nodup_cons] at hnd
    by_cases hk : hd.key = key
    · have hrest : tl.filter (fun hdr => hdr.key ≠ key) = tl := by
        apply List.filter_eq_self.mpr
        intro x hx
        simp only [ne_eq, decide_not, Bool.not_eq_true', decide_eq_false_iff_not]
        intro hxk
        exact hnd.1 (by rw [hk, ← hxk]; exact List.mem_map_of_mem CommonHeader.key hx)
      rw [List.filter_cons, if_neg (by simp [hk]), hrest]
      simp only [List.length_cons]
      omega
    · have := ih hnd.2
      rw [List.filter_cons, if_pos (by simp [hk])]
      simp only [List.length_cons]
      omega

theorem deletePage_of_one (s : Skeleton) (key : String)
    (h : s.pages.length = 1) : s.DeletePage key = s := by
  unfold Skeleton.DeletePage
  rw [if_pos h]

theorem deletePage_preserves (s : Skeleton) (key : String)
    (hwf : s.WellFormed) (hlen : 1 ≤ s.pages.length) :
    (s.DeletePage key).WellFormed ∧ 1 ≤ (s.DeletePage key).pages.length := by
  by_cases h1 : s.pages.length = 1
  · rw [deletePage_of_one s key h1]
    exact ⟨hwf, hlen⟩
  · have h2 : 2 ≤ s.pages.length := by omega
    unfold Skeleton.DeletePage
    rw [if_neg h1]
    set t := if s.GetActivePage = some key
             then { s with currentTab := 0, header := s.header.SetCurrentTab 0 }
             else s with ht
    have htp : t.pages = s.pages := by
      rw [ht]; split <;> rfl
    have hth : t.header.headers = s.header.headers := by
      rw [ht]; split <;> rfl
    have hlen' :
        (((t.pages.zip t.header.headers).filter (fun ph => ph.2.key ≠ key)).map
            Prod.fst).length = (s.header.headers.filter (fun hdr => hdr.key ≠ key)).length := by
      rw [htp, hth]
      exact zip_filter_key_length s.pages s.header.headers key hwf.1
    refine ⟨⟨?_, ?_⟩, ?_⟩
    · show (((t.pages.zip t.header.headers).filter _).map Prod.fst).length
        = ((t.header.DeleteCommonHeader t.viewport t.updater key).1.headers).length
      rw [hlen']
      simp [Header.DeleteCommonHeader, Header.calculateTitleLength, hth]
    · show (((t.header.DeleteCommonHeader t.viewport t.updater key).1.headers).map
          CommonHeader.key).Nodup
      simp only [Header.DeleteCommonHeader, Header.calculateTitleLength, hth]
      exact ((List.filter_sublist _).map CommonHeader.key).nodup hwf.2
    · show 1 ≤ (((t.pages.zip t.header.headers).filter _).map Prod.fst).length
      rw [hlen']
      have := length_filter_key_ge s.header.headers key hwf.2
      have hhl : s.header.headers.length = s.pages.length := hwf.1.symm
      omega

/-- Claim C3: from a well-formed registry that already holds at least one
page, no sequence of `AddPage`/`DeletePage` calls ever drops the page
count below one (well-formedness is preserved along the way); and
`DeletePage` invoked while exactly one page remains is the identity on the
whole state, for every key. -/
theorem c3_page_floor :
    (∀ s : Skeleton, s.WellFormed → 1 ≤ s.pages.length →
      ∀ ops : List RegOp,
        (s.applyRegOps ops).WellFormed ∧ 1 ≤ (s.applyRegOps ops).pages.length) ∧
    (∀ (s : Skeleton) (key : String), s.pages.length = 1 → s.DeletePage key = s) := by
  constructor
  · intro s hwf hlen ops
    induction ops generalizing s with
    | nil => exact ⟨hwf, hlen⟩
    | cons op rest ih =>
      have hstep : (s.applyRegOp op).WellFormed ∧ 1 ≤ (s.applyRegOp op).pages.length := by
        cases op with
        | add key title p => exact addPage_preserves s key title p hwf hlen
        | del key => exact deletePage_preserves s key hwf hlen
      exact ih _ hstep.1 hstep.2
  · exact deletePage_of_one

/-- Witness for C3: a concrete one-page registry survives a delete/add
sequence with at least one page, and deleting its only page is the
identity. -/
theorem c3_witness :
    ((((NewSkeleton.AddPage "a" "Home" (Page.mk 1)).applyRegOps
        [RegOp.del "a", RegOp.add "b" "Logs" (Page.mk 2)]).WellFormed) ∧
      1 ≤ ((NewSkeleton.AddPage "a" "Home" (Page.mk 1)).applyRegOps
        [RegOp.del "a", RegOp.add "b" "Logs" (Page.mk 2)]).pages.length) ∧
    (NewSkeleton.AddPage "a" "Home" (Page.mk 1)).DeletePage "a"
        = NewSkeleton.AddPage "a" "Home" (Page.mk 1) := by
  constructor
  · exact c3_page_floor.1 (NewSkeleton.AddPage "a" "Home" (Page.mk 1))
      (by constructor <;> decide) (by decide)
      [RegOp.del "a", RegOp.add "b" "Logs" (Page.mk 2)]
  · exact c3_page_floor.2 (NewSkeleton.AddPage "a" "Home" (Page.mk 1)) "a" (by decide)

/-- Claim C9: `AddPage` with an already-registered key leaves the whole
state unchanged, and consequently the registered keys stay pairwise
distinct under every sequence of `AddPage` calls starting from
pairwise-distinct keys. -/
theorem c9_addpage_rejects_duplicates :
    (∀ (s : Skeleton) (key title : String) (p : Page),
        key ∈ s.header.headers.map CommonHeader.key → s.AddPage key title p = s) ∧
    (∀ s : Skeleton, (s.header.headers.map CommonHeader.key).Nodup →
        ∀ adds : List (String × String × Page),
          (((adds.foldl (fun s a => s.AddPage a.1 a.2.1 a.2.2) s)).header.headers.map
              CommonHeader.key).Nodup) := by
  refine ⟨addPage_of_dup, ?_⟩
  intro s hnd adds
  induction adds generalizing s with
  | nil => exact hnd
  | cons a rest ih => exact ih _ (addPage_nodup _ _ _ _ hnd)

/-- Witness for C9: the spec's scenario — tabs `a`,`b`; a second add of
`a` is ignored and the keys remain the two distinct originals. -/
theorem c9_witness :
    (((NewSkeleton.AddPage "a" "Home" (Page.mk 1)).AddPage "b" "Logs"
        (Page.mk 2)).AddPage "a" "Dup" (Page.mk 3)
      = (NewSkeleton.AddPage "a" "Home" (Page.mk 1)).AddPage "b" "Logs" (Page.mk 2)) ∧
    ((([("a", "Home", Page.mk 1), ("b", "Logs", Page.mk 2), ("a", "Dup", Page.mk 3)] :
          List (String × String × Page)).foldl
        (fun s a => s.AddPage a.1 a.2.1 a.2.2) NewSkeleton).header.headers.map
          CommonHeader.key).Nodup := by
  constructor
  · exact c9_addpage_rejects_duplicates.1 _ "a" "Dup" (Page.mk 3) (by decide)
  · exact c9_addpage_rejects_duplicates.2 NewSkeleton (by decide) _

/-! ### Navigation scan lemmas -/

theorem findUnlockedLeft_some (hd : Header) :
    ∀ i n, hd.findUnlockedLeft i = some n →
      n < i ∧ hd.IsTabLocked (hd.headers.getD n default).key = false ∧
      ∀ m, n < m → m < i → hd.IsTabLocked (hd.headers.getD m default).key = true := by
  intro i
  induction i with
  | zero => intro n h; simp [Header.findUnlockedLeft] at h
  | succ j ih =>
    intro n h
    simp only [Header.findUnlockedLeft] at h
    by_cases hl : hd.IsTabLocked (hd.headers.getD j default).key = true
    · rw [hl] at h
      simp only [Bool.not_true, Bool.false_eq_true, if_false] at h
      obtain ⟨h1, h2, h3⟩ := ih n h
      refine ⟨by omega, h2, ?_⟩
      intro m hm1 hm2
      by_cases hmj : m = j
      · exact hmj ▸ hl
      · exact h3 m hm1 (by omega)
    · rw [Bool.not_eq_true] at hl
      rw [hl] at h
      simp only [Bool.not_false, if_true, Option.some.injEq] at h
      subst h
      exact ⟨Nat.lt_succ_self _, hl, fun m hm1 hm2 => by omega⟩

theorem findUnlockedLeft_none (hd : Header) :
    ∀ i, hd.findUnlockedLeft i = none →
      ∀ m, m < i → hd.IsTabLocked (hd.headers.getD m default).key = true := by
  intro i
  induction i with
  | zero => intro _ m hm; omega
  | succ j ih =>
    intro h m hm
    simp only [Header.findUnlockedLeft] at h
    by_cases hl : hd.IsTabLocked (hd.headers.getD j default).key = true
    · rcases Nat.lt_succ_iff_lt_or_eq.mp hm with hmj | hmj
      · refine ih ?_ m hmj
        rw [hl] at h
        simpa using h
      · exact hmj ▸ hl
    · rw [Bool.not_eq_true] at hl
      rw [hl] at h
      simp at h

theorem findUnlockedRight_some (hd : Header) (bound : Nat) :
    ∀ start n, hd.findUnlockedRight bound start = some n →
      start ≤ n ∧ n < bound ∧ hd.IsTabLocked (hd.headers.getD n default).key = false ∧
      ∀ m, start ≤ m → m < n → hd.IsTabLocked (hd.headers.getD m default).key = true := by
  have main : ∀ k start n, bound - start = k →
      hd.findUnlockedRight bound start = some n →
      start ≤ n ∧ n < bound ∧ hd.IsTabLocked (hd.headers.getD n default).key = false ∧
      ∀ m, start ≤ m → m < n → hd.IsTabLocked (hd.headers.getD m default).key = true := by
    intro k
    induction k with
    | zero =>
      intro start n hk h
      rw [Header.findUnlockedRight] at h
      rw [dif_neg (by omega)] at h
      exact absurd h (by simp)
    | succ k ih =>
      intro start n hk h
      rw [Header.findUnlockedRight] at h
      by_cases hs : start < bound
      · rw [dif_pos hs] at h
        by_cases hl : hd.IsTabLocked (hd.headers.getD start default).key = true
        · rw [hl] at h
          simp only [Bool.not_true, Bool.false_eq_true, if_false] at h
          obtain ⟨h1, h2, h3, h4⟩ := ih (start + 1) n (by omega) h
          refine ⟨by omega, h2, h3, ?_⟩
          intro m hm1 hm2
          rcases Nat.eq_or_lt_of_le hm1 with hme | hm'
          · exact hme ▸ hl
          · exact h4 m hm' hm2
        · rw [Bool.not_eq_true] at hl
          rw [hl] at h
          simp only [Bool.not_false, if_true, Option.some.injEq] at h
          subst h
          exact ⟨Nat.le_refl _, hs, hl, fun m hm1 hm2 => by omega⟩
      · rw [dif_neg hs] at h
        simp at h
  exact fun start n h => main (bound - start) start n rfl h

theorem findUnlockedRight_none (hd : Header) (bound : Nat) :
    ∀ start, hd.findUnlockedRight bound start = none →
      ∀ m, start ≤ m → m < bound →
        hd.IsTabLocked (hd.headers.getD m default).key = true := by
  have main : ∀ k start, bound - start = k →
      hd.findUnlockedRight bound start = none →
      ∀ m, start ≤ m → m < bound →
        hd.IsTabLocked (hd.headers.getD m default).key = true := by
    intro k
    induction k with
    | zero =>
      intro start hk _ m hm1 hm2
      omega
    | succ k ih =>
      intro start hk h m hm1 hm2
      rw [Header.findUnlockedRight] at h
      rw [dif_pos (by omega)] at h
      by_cases hl : hd.IsTabLocked (hd.headers.getD start default).key = true
      · rcases Nat.eq_or_lt_of_le hm1 with hme | hm'
        · exact hme ▸ hl
        · refine ih (start + 1) (by omega) ?_ m hm' hm2
          rw [hl] at h
          simpa using h
      · rw [Bool.not_eq_true] at hl
        rw [hl] at h
        simp at h
  exact fun start h => main (bound - start) start rfl h

theorem switchPage_of_locked (s : Skeleton) (cmds : List Cmd) (pos : String)
    (h : s.IsTabsLocked = true) : s.switchPage cmds pos = (s, cmds) := by
  simp [Skeleton.switchPage, h]

theorem lockTabs_sets_flag (s : Skeleton) : (s.LockTabs).IsTabsLocked = true := rfl

theorem effectivelyLocked_of_unlocked_global (s : Skeleton) (key : String)
    (h : s.lockTabs = false) :
    s.EffectivelyLocked key = s.header.IsTabLocked key := by
  simp [Skeleton.EffectivelyLocked, h]

/-- Claim C2: with the global lock set, both navigations leave the state
untouched and append no follow-up command; otherwise each navigation scans
outward from the current index (down for left, up for right, never
wrapping) to the nearest effectively-unlocked tab, and leaves everything
unchanged when no such tab exists before the boundary; after `LockTabs`
both navigations are no-ops whatever the current index. -/
theorem c2_navigation_locks :
    (∀ (s : Skeleton) (cmds : List Cmd) (pos : String),
        s.IsTabsLocked = true → s.switchPage cmds pos = (s, cmds)) ∧
    (∀ s : Skeleton, s.lockTabs = false →
        (((s.switchPage [] "left").1.currentTab < s.currentTab ∧
          (s.switchPage [] "left").2 = [Cmd.iamActivePage] ∧
          s.EffectivelyLocked (s.keyAt (s.switchPage [] "left").1.currentTab) = false ∧
          ∀ m, (s.switchPage [] "left").1.currentTab < m → m < s.currentTab →
            s.EffectivelyLocked (s.keyAt m) = true) ∨
         (s.switchPage [] "left" = (s, []) ∧
          ∀ m, m < s.currentTab → s.EffectivelyLocked (s.keyAt m) = true))) ∧
    (∀ s : Skeleton, s.lockTabs = false →
        ((s.currentTab < (s.switchPage [] "right").1.currentTab ∧
          (s.switchPage [] "right").1.currentTab < s.pages.length ∧
          (s.switchPage [] "right").2 = [Cmd.iamActivePage] ∧
          s.EffectivelyLocked (s.keyAt (s.switchPage [] "right").1.currentTab) = false ∧
          ∀ m, s.currentTab < m → m < (s.switchPage [] "right").1.currentTab →
            s.EffectivelyLocked (s.keyAt m) = true) ∨
         (s.switchPage [] "right" = (s, []) ∧
          ∀ m, s.currentTab < m → m < s.pages.length →
            s.EffectivelyLocked (s.keyAt m) = true))) ∧
    (∀ (s : Skeleton) (cmds : List Cmd) (pos : String),
        (s.LockTabs).switchPage cmds pos = (s.LockTabs, cmds)) := by
  refine ⟨switchPage_of_locked, ?_, ?_, ?_⟩
  · intro s hglobal
    rcases hfl : s.header.findUnlockedLeft s.currentTab with _ | n
    · right
      constructor
      · simp [Skeleton.switchPage, Skeleton.IsTabsLocked, hglobal, hfl]
      · intro m hm
        rw [effectivelyLocked_of_unlocked_global s _ hglobal]
        exact findUnlockedLeft_none s.header s.currentTab hfl m hm
    · left
      obtain ⟨h1, h2, h3⟩ := findUnlockedLeft_some s.header s.currentTab n hfl
      have hsp : s.switchPage [] "left"
          = ({ s with currentTab := n, header := s.header.SetCurrentTab n },
             [Cmd.iamActivePage]) := by
        simp [Skeleton.switchPage, Skeleton.IsTabsLocked, hglobal, hfl]
      rw [hsp]
      refine ⟨h1, rfl, ?_, ?_⟩
      · rw [effectivelyLocked_of_unlocked_global s _ hglobal]
        exact h2
      · intro m hm1 hm2
        rw [effectivelyLocked_of_unlocked_global s _ hglobal]
        exact h3 m hm1 hm2
  · intro s hglobal
    rcases hfr : s.header.findUnlockedRight s.pages.length (s.currentTab + 1) with _ | n
    · right
      constructor
      · simp [Skeleton.switchPage, Skeleton.IsTabsLocked, hglobal, hfr]
      · intro m hm1 hm2
        rw [effectivelyLocked_of_unlocked_global s _ hglobal]
        exact findUnlockedRight_none s.header s.pages.length _ hfr m (by omega) hm2
    · left
      obtain ⟨h1, h2, h3, h4⟩ := findUnlockedRight_some s.header s.pages.length _ n hfr
      have hsp : s.switchPage [] "right"
          = ({ s with currentTab := n, header := s.header.SetCurrentTab n },
             [Cmd.iamActivePage]) := by
        simp [Skeleton.switchPage, Skeleton.IsTabsLocked, hglobal, hfr]
      rw [hsp]
      refine ⟨Nat.lt_of_succ_le h1, h2, rfl, ?_, ?_⟩
      · rw [effectivelyLocked_of_unlocked_global s _ hglobal]
        exact h3
      · intro m hm1 hm2
        rw [effectivelyLocked_of_unlocked_global s _ hglobal]
        exact h4 m (by omega) hm2
  · intro s cmds pos
    exact switchPage_of_locked _ cmds pos (lockTabs_sets_flag s)

/-- A two-tab registry (`a`,`b`, active `b`, `a` individually locked) used
to witness C2 concretely. -/
def c2sample : Skeleton :=
  ((((NewSkeleton.AddPage "a" "Home" (Page.mk 1)).AddPage "b" "Logs"
      (Page.mk 2)).SetActivePage "b").LockTab "a")

/-- Witness for C2: after `LockTabs` both navigations on the concrete
sample are no-ops, and on the unlocked sample the left-scan conclusion
holds with its hypothesis discharged concretely. -/
theorem c2_witness :
    ((c2sample.LockTabs).switchPage [] "left" = (c2sample.LockTabs, []) ∧
     (c2sample.LockTabs).switchPage [] "right" = (c2sample.LockTabs, [])) ∧
    (((c2sample.switchPage [] "left").1.currentTab < c2sample.currentTab ∧
      (c2sample.switchPage [] "left").2 = [Cmd.iamActivePage] ∧
      c2sample.EffectivelyLocked
        (c2sample.keyAt (c2sample.switchPage [] "left").1.currentTab) = false ∧
      ∀ m, (c2sample.switchPage [] "left").1.currentTab < m →
        m < c2sample.currentTab → c2sample.EffectivelyLocked (c2sample.keyAt m) = true) ∨
     (c2sample.switchPage [] "left" = (c2sample, []) ∧
      ∀ m, m < c2sample.currentTab →
        c2sample.EffectivelyLocked (c2sample.keyAt m) = true)) :=
  ⟨⟨c2_navigation_locks.2.2.2 c2sample [] "left",
    c2_navigation_locks.2.2.2 c2sample [] "right"⟩,
   c2_navigation_locks.2.1 c2sample rfl⟩

/-! ### LockTabs fold lemmas -/

theorem lockTab_fold_headers (hdrs : List CommonHeader) :
    ∀ p : Header × Updater,
      ((hdrs.foldl (fun (p : Header × Updater) hdr => p.1.LockTab p.2 hdr.key) p)).1.headers
        = p.1.headers := by
  induction hdrs with
  | nil => intro p; rfl
  | cons hd tl ih =>
    intro p
    rw [List.foldl_cons, ih]
    rfl

theorem lockTab_fold_mem (hdrs : List CommonHeader) :
    ∀ (p : Header × Updater) (key : String),
      (key ∈ p.1.lockedTabs ∨ key ∈ hdrs.map CommonHeader.key) →
      key ∈ ((hdrs.foldl (fun (p : Header × Updater) hdr => p.1.LockTab p.2 hdr.key) p)).1.lockedTabs := by
  induction hdrs with
  | nil =>
    intro p key h
    rcases h with h | h
    · exact h
    · simp at h
  | cons hd tl ih =>
    intro p key h
    rw [List.foldl_cons]
    apply ih
    have hstep : ∀ k, k ∈ p.1.lockedTabs ∨ k = hd.key →
        k ∈ (p.1.LockTab p.2 hd.key).1.lockedTabs := by
      intro k hk
      unfold Header.LockTab
      simp only
      split
      · rcases hk with hk | hk
        · exact hk
        · exact hk ▸ ‹hd.key ∈ p.1.lockedTabs›
      · rcases hk with hk | hk
        · exact List.mem_append_left _ hk
        · simp [hk]
    rcases h with h | h
    · exact Or.inl (hstep key (Or.inl h))
    · simp only [List.map_cons, List.mem_cons] at h
      rcases h with hk | hk
      · exact Or.inl (hstep key (Or.inr hk))
      · exact Or.inr hk

theorem lockTab_fold_not_mem (hdrs : List CommonHeader) :
    ∀ (p : Header × Updater) (key : String),
      ¬ key ∈ p.1.lockedTabs → ¬ key ∈ hdrs.map CommonHeader.key →
      ¬ key ∈ ((hdrs.foldl (fun (p : Header × Updater) hdr => p.1.LockTab p.2 hdr.key) p)).1.lockedTabs := by
  induction hdrs with
  | nil => intro p key h _; exact h
  | cons hd tl ih =>
    intro p key h hmap
    rw [List.foldl_cons]
    have hne : key ≠ hd.key := by
      intro he
      exact hmap (by simp [he])
    refine ih _ key ?_ (by intro hc; exact hmap (by simpa using Or.inr hc))
    unfold Header.LockTab
    simp only
    split
    · exact h
    · intro hc
      rcases List.mem_append.mp hc with hc | hc
      · exact h hc
      · exact hne (by simpa using hc)

theorem lockTabs_headers (s : Skeleton) :
    (s.LockTabs).header.headers = s.header.headers := by
  unfold Skeleton.LockTabs Header.SetLockTabs
  simp only [if_true]
  exact lockTab_fold_headers _ _

theorem lockTabs_lockedTabs_mem (s : Skeleton) (key : String)
    (h : key ∈ s.header.headers.map CommonHeader.key) :
    key ∈ (s.LockTabs).header.lockedTabs := by
  unfold Skeleton.LockTabs Header.SetLockTabs
  simp only [if_true]
  exact lockTab_fold_mem _ _ key (Or.inr h)

theorem lockTabs_lockedTabs_not_mem (s : Skeleton) (key : String)
    (h1 : ¬ key ∈ s.header.lockedTabs)
    (h2 : ¬ key ∈ s.header.headers.map CommonHeader.key) :
    ¬ key ∈ (s.LockTabs).header.lockedTabs := by
  unfold Skeleton.LockTabs Header.SetLockTabs
  simp only [if_true]
  exact lockTab_fold_not_mem _ _ key h1 h2

/-- The state refuting C6: one tab (`a`) is registered, the global lock is
set via `LockTabs`, then a second tab (`b`) is added. -/
def c6state : Skeleton :=
  ((NewSkeleton.AddPage "a" "Home" (Page.mk 1)).LockTabs).AddPage "b" "Logs" (Page.mk 2)

/-- Counterexample to C6 as stated: in `c6state` the global lock flag is
set and `b` is a registered tab, yet `IsTabLocked "b"` reports `false`
while the spec's effectively-locked notion (global OR individual) is
`true` — the claimed if-and-only-if fails on a tab added after the global
lock was set. -/
theorem c6_counterexample :
    c6state.lockTabs = true ∧
    "b" ∈ c6state.header.headers.map CommonHeader.key ∧
    c6state.IsTabLocked "b" = false ∧
    c6state.EffectivelyLocked "b" = true := by decide

/-- Claim C6 (amended): `IsTabLocked` returns true exactly when the key is
in the individually-locked set; `LockTabs` individually locks every tab
registered at the moment of the call, so those tabs all report locked
afterwards, but a tab registered after the global lock was set (and never
locked individually) still reports unlocked even though the global flag
remains set. -/
theorem c6_amended_is_tab_locked :
    (∀ (s : Skeleton) (key : String),
        s.IsTabLocked key = true ↔ key ∈ s.header.lockedTabs) ∧
    (∀ (s : Skeleton) (hdr : CommonHeader), hdr ∈ s.header.headers →
        (s.LockTabs).IsTabLocked hdr.key = true) ∧
    (∀ (s : Skeleton) (key title : String) (p : Page),
        s.header.IsTabLocked key = false →
        ¬ key ∈ s.header.headers.map CommonHeader.key →
        ((s.LockTabs).AddPage key title p).lockTabs = true ∧
        ((s.LockTabs).AddPage key title p).IsTabLocked key = false) := by
  refine ⟨?_, ?_, ?_⟩
  · intro s key
    simp [Skeleton.IsTabLocked, Header.IsTabLocked]
  · intro s hdr hmem
    simp only [Skeleton.IsTabLocked, Header.IsTabLocked, decide_eq_true_eq]
    exact lockTabs_lockedTabs_mem s hdr.key (List.mem_map_of_mem CommonHeader.key hmem)
  · intro s key title p h1 h2
    have h1' : ¬ key ∈ s.header.lockedTabs := by
      simpa [Header.IsTabLocked] using h1
    have hnot : ¬ key ∈ (s.LockTabs).header.lockedTabs :=
      lockTabs_lockedTabs_not_mem s key h1' h2
    have hnomem : ¬ key ∈ (s.LockTabs).header.headers.map CommonHeader.key := by
      rw [lockTabs_headers]
      exact h2
    obtain ⟨hh, _⟩ := addPage_headers (s.LockTabs) key title p hnomem
    constructor
    · have : ∀ t : Skeleton, ¬ key ∈ t.header.headers.map CommonHeader.key →
          (t.AddPage key title p).lockTabs = t.lockTabs := by
        intro t ht
        have hcond : ¬ (t.header.headers.any fun hdr => hdr.key = key) = true := by
          simp only [List.any_eq_true, decide_eq_true_eq]
          rintro ⟨hdr, hmem, hkeq⟩
          exact ht (hkeq ▸ List.mem_map_of_mem CommonHeader.key hmem)
        unfold Skeleton.AddPage
        rw [if_neg hcond]
      rw [this _ hnomem]
      rfl
    · have hlk : ∀ t : Skeleton, ¬ key ∈ t.header.headers.map CommonHeader.key →
          (t.AddPage key title p).header.lockedTabs = t.header.lockedTabs := by
        intro t ht
        have hcond : ¬ (t.header.headers.any fun hdr => hdr.key = key) = true := by
          simp only [List.any_eq_true, decide_eq_true_eq]
          rintro ⟨hdr, hmem, hkeq⟩
          exact ht (hkeq ▸ List.mem_map_of_mem CommonHeader.key hmem)
        unfold Skeleton.AddPage
        rw [if_neg hcond]
        simp [Header.AddCommonHeader, Header.calculateTitleLength]
      simp only [Skeleton.IsTabLocked, Header.IsTabLocked, hlk _ hnomem]
      simpa using hnot

/-- Witness for C6 (amended): on the concrete counterexample state, the
tab registered before `LockTabs` reports locked, and the tab added
afterwards reports unlocked while the global flag is still set. -/
theorem c6_witness :
    ((NewSkeleton.AddPage "a" "Home" (Page.mk 1)).LockTabs).IsTabLocked "a" = true ∧
    (((NewSkeleton.AddPage "a" "Home" (Page.mk 1)).LockTabs).AddPage "b" "Logs"
        (Page.mk 2)).lockTabs = true ∧
    (((NewSkeleton.AddPage "a" "Home" (Page.mk 1)).LockTabs).AddPage "b" "Logs"
        (Page.mk 2)).IsTabLocked "b" = false := by
  refine ⟨?_, ?_⟩
  · exact c6_amended_is_tab_locked.2.1 (NewSkeleton.AddPage "a" "Home" (Page.mk 1))
      (CommonHeader.mk "a" "Home") (by decide)
  · exact c6_amended_is_tab_locked.2.2 (NewSkeleton.AddPage "a" "Home" (Page.mk 1))
      "b" "Logs" (Page.mk 2) (by decide) (by decide)

/-! ### View / compositor lemmas -/

theorem switchPage_termReady (s : Skeleton) (cmds : List Cmd) (pos : String) :
    ((s.switchPage cmds pos).1).termReady = s.termReady := by
  unfold Skeleton.switchPage
  split
  · rfl
  · split
    · rcases h : s.header.findUnlockedLeft s.currentTab with _ | n <;> simp [h]
    · split
      · rcases h : s.header.findUnlockedRight s.pages.length (s.currentTab + 1) with _ | n <;>
          simp [h]
      · rfl

theorem updateSkeleton_termReady (s : Skeleton) (msg : Msg) (cmds : List Cmd) :
    ((s.updateSkeleton msg cmds).1).termReady = s.termReady := rfl

theorem teaUpdate_termReady (s : Skeleton) (m : Msg)
    (hm : ∀ w h : Int, m = .windowSize w h → w ≤ 0 ∨ h ≤ 0) :
    ((s.teaUpdate m).1).termReady = s.termReady := by
  cases m with
  | windowSize w ht =>
    have hwh := hm w ht rfl
    have hcond : (!s.termReady && decide (w > 0) && decide (ht > 0)) = false := by
      rcases hwh with hw | hh
      · simp [show ¬ (w > 0) by omega]
      · simp [show ¬ (ht > 0) by omega]
    simp only [Skeleton.teaUpdate, Skeleton.updateSkeleton]
    simp [hcond]
  | key k =>
    cases k with
    | quit => rfl
    | switchTabLeft =>
      simp only [Skeleton.teaUpdate]
      rw [updateSkeleton_termReady, switchPage_termReady]
    | switchTabRight =>
      simp only [Skeleton.teaUpdate]
      rw [updateSkeleton_termReady, switchPage_termReady]
    | otherKey => rfl
  | addPageMsg key title page => rfl
  | updateMsg => rfl
  | headerSize b => rfl
  | widgetSize b => rfl
  | iamActivePage => rfl
  | otherMsg t => rfl

theorem processAll_termReady (s : Skeleton) (msgs : List Msg)
    (hm : ∀ w h : Int, Msg.windowSize w h ∈ msgs → w ≤ 0 ∨ h ≤ 0) :
    (s.processAll msgs).termReady = s.termReady := by
  induction msgs generalizing s with
  | nil => rfl
  | cons m rest ih =>
    have hstep := teaUpdate_termReady s m
      (fun w h he => hm w h (he ▸ List.mem_cons_self m rest))
    have hrest := ih (s.teaUpdate m).1
      (fun w h hmem => hm w h (List.mem_cons_of_mem m hmem))
    calc (s.processAll (m :: rest)).termReady
        = (((s.teaUpdate m).1).processAll rest).termReady := rfl
      _ = ((s.teaUpdate m).1).termReady := hrest
      _ = s.termReady := hstep

theorem teaUpdate_windowSize_ready (s : Skeleton) (w h : Int)
    (hw : 0 < w) (hh : 0 < h) :
    ((s.teaUpdate (.windowSize w h)).1).termReady = true := by
  simp only [Skeleton.teaUpdate, Skeleton.updateSkeleton]
  by_cases htr : s.termReady
  · simp [htr]
  · simp [htr, hw, hh]

theorem teaUpdate_windowSize_cmds (s : Skeleton) (w h : Int) :
    (s.teaUpdate (.windowSize w h)).2
      = [Cmd.emitHeaderSize (decide (0 ≤ w - (s.header.titleLen + 2))),
         Cmd.emitWidgetSize (widgetsFit w s.widgets)] := by
  simp only [Skeleton.teaUpdate, Skeleton.updateSkeleton, Header.teaUpdate,
    Header.calculateTitleLength, widgetTeaUpdate]
  split <;> split <;> rfl

theorem teaUpdate_headerSize (s : Skeleton) (b : Bool) :
    (s.teaUpdate (.headerSize b)).1
      = { s with currentTab := s.header.currentTab,
                 termSizeNotEnoughToHandleHeaders := b } := rfl

/-- Claim C8: `View` returns the `"setting up terminal..."` placeholder as
long as no resize with both dimensions positive has been processed; and on
a resize whose width is below the computed header requirement
(`titleLen + 2`), the emitted `HeaderSizeMsg` carries `false`, and once it
is processed `View` returns the `"terminal size is not enough to show
headers"` placeholder instead of any composed layout. -/
theorem c8_view_placeholders :
    (∀ (s : Skeleton) (msgs : List Msg), s.termReady = false →
        (∀ w h : Int, Msg.windowSize w h ∈ msgs → w ≤ 0 ∨ h ≤ 0) →
        (s.processAll msgs).View = .text "setting up terminal...") ∧
    (∀ (s : Skeleton) (w h : Int), 0 < w → 0 < h →
        w < s.header.titleLen + 2 →
        Cmd.emitHeaderSize false ∈ (s.teaUpdate (.windowSize w h)).2 ∧
        (((s.teaUpdate (.windowSize w h)).1.teaUpdate (.headerSize false)).1).View
          = .text "terminal size is not enough to show headers") := by
  constructor
  · intro s msgs htr hm
    have := processAll_termReady s msgs hm
    rw [htr] at this
    simp [Skeleton.View, this]
  · intro s w h hw hh hlt
    constructor
    · rw [teaUpdate_windowSize_cmds]
      have hfalse : decide (0 ≤ w - (s.header.titleLen + 2)) = false := by
        simp only [decide_eq_false_iff_not]
        omega
      rw [hfalse]
      simp
    · have hready := teaUpdate_windowSize_ready s w h hw hh
      rw [teaUpdate_headerSize]
      simp [Skeleton.View, hready]

/-- Witness for C8: the fresh controller keeps showing the initialization
placeholder through a zero-width resize, and on a width-5 resize (header
requirement 12 for one `Home` tab) emits the not-enough signal whose
processing makes `View` return the headers placeholder. -/
theorem c8_witness :
    (NewSkeleton.processAll [Msg.windowSize 0 24]).View
        = ViewOut.text "setting up terminal..." ∧
    (Cmd.emitHeaderSize false ∈
        ((NewSkeleton.AddPage "a" "Home" (Page.mk 1)).teaUpdate
          (.windowSize 5 30)).2 ∧
      ((((NewSkeleton.AddPage "a" "Home" (Page.mk 1)).teaUpdate
            (.windowSize 5 30)).1.teaUpdate (.headerSize false)).1).View
        = ViewOut.text "terminal size is not enough to show headers") := by
  constructor
  · refine c8_view_placeholders.1 NewSkeleton [Msg.windowSize 0 24] rfl ?_
    intro w h hmem
    simp only [List.mem_singleton, Msg.windowSize.injEq] at hmem
    exact Or.inl (by omega)
  · exact c8_view_placeholders.2 (NewSkeleton.AddPage "a" "Home" (Page.mk 1)) 5 30
      (by decide) (by decide) (by decide)

/-! ### DeletePage frame-effect lemmas -/

theorem key_getElem_injective (l : List CommonHeader)
    (hnd : (l.map CommonHeader.key).Nodup) (i j : Nat)
    (hi : i < l.length) (hj : j < l.length)
    (h : l[i].key = l[j].key) : i = j := by
  have hi' : i < (l.map CommonHeader.key).length := by simpa using hi
  have hj' : j < (l.map CommonHeader.key).length := by simpa using hj
  have hkeys : (l.map CommonHeader.key)[i] = (l.map CommonHeader.key)[j] := by
    rw [List.getElem_map, List.getElem_map]
    exact h
  exact (hnd.getElem_inj_iff).mp hkeys

theorem filter_key_eq_erase (l : List CommonHeader) :
    ∀ (j : Nat) (hj : j < l.length), (l.map CommonHeader.key).Nodup →
      l.filter (fun hdr => hdr.key ≠ l[j].key) = l.take j ++ l.drop (j + 1) := by
  induction l with
  | nil => intro j hj _; simp at hj
  | cons a tl ih =>
    intro j hj hnd
    simp only [List.map_cons, List.nodup_cons] at hnd
    cases j with
    | zero =>
      have htl : tl.filter (fun hdr => hdr.key ≠ a.key) = tl := by
        apply List.filter_eq_self.mpr
        intro x hx
        simp only [ne_eq, decide_not, Bool.not_eq_true', decide_eq_false_iff_not]
        intro hxk
        exact hnd.1 (hxk ▸ List.mem_map_of_mem CommonHeader.key hx)
      rw [List.filter_cons, if_neg (by simp)]
      simpa using htl
    | succ j =>
      have hj' : j < tl.length := by simpa using hj
      have hcons : (a :: tl)[j + 1] = tl[j] := List.getElem_cons_succ a tl j hj
      have hkeep : (decide (a.key ≠ (a :: tl)[j + 1].key)) = true := by
        rw [hcons]
        simp only [ne_eq, decide_not, Bool.not_eq_true', decide_eq_false_iff_not]
        intro hak
        exact hnd.1 (hak ▸ List.mem_map_of_mem CommonHeader.key (tl.getElem_mem hj'))
      rw [List.filter_cons, if_pos hkeep]
      simp only [hcons]
      rw [ih j hj' hnd.2, List.take_succ_cons, List.drop_succ_cons]
      rfl

theorem deletePage_currentTab (s : Skeleton) (key : String)
    (h : ¬ s.GetActivePage = some key) :
    (s.DeletePage key).currentTab = s.currentTab := by
  by_cases h1 : s.pages.length = 1
  · rw [deletePage_of_one s key h1]
  · unfold Skeleton.DeletePage
    rw [if_neg h1, if_neg h]

theorem deletePage_headers (s : Skeleton) (key : String)
    (h1 : s.pages.length ≠ 1) (hga : ¬ s.GetActivePage = some key) :
    (s.DeletePage key).header.headers
      = s.header.headers.filter (fun hdr => hdr.key ≠ key) := by
  unfold Skeleton.DeletePage
  rw [if_neg h1, if_neg hga]
  simp [Header.DeleteCommonHeader, Header.calculateTitleLength]

/-- Claim C10: deleting a non-active tab never changes the numeric active
index; and when the deleted tab sits before the active index, the
unchanged index afterwards denotes a different tab than the one active
before the call — or no tab at all when the previously active tab was the
last one. -/
theorem c10_delete_frame_effect :
    (∀ (s : Skeleton) (key : String), ¬ s.GetActivePage = some key →
        (s.DeletePage key).currentTab = s.currentTab) ∧
    (∀ (s : Skeleton) (key : String) (j : Nat)
        (hj : j < s.header.headers.length),
        s.WellFormed → 2 ≤ s.pages.length →
        s.currentTab < s.header.headers.length →
        s.header.headers[j].key = key → j < s.currentTab →
        (s.DeletePage key).currentTab = s.currentTab ∧
        ((s.DeletePage key).GetActivePage = none ∨
          (s.DeletePage key).GetActivePage ≠ s.GetActivePage)) := by
  refine ⟨deletePage_currentTab, ?_⟩
  intro s key j hj hwf h2 hctl hkey hjct
  have hnd := hwf.2
  have hne : s.header.headers[s.currentTab].key ≠ key := by
    intro he
    have := key_getElem_injective s.header.headers hnd s.currentTab j hctl hj
      (by rw [he, hkey])
    omega
  have hga : ¬ s.GetActivePage = some key := by
    unfold Skeleton.GetActivePage
    rw [List.get?_eq_getElem?, List.getElem?_eq_getElem hctl]
    simpa using hne
  have hct' := deletePage_currentTab s key hga
  refine ⟨hct', ?_⟩
  have hlen1 : s.pages.length ≠ 1 := by omega
  have hh : (s.DeletePage key).header.headers
      = s.header.headers.take j ++ s.header.headers.drop (j + 1) := by
    rw [deletePage_headers s key hlen1 hga]
    simp only [← hkey]
    exact filter_key_eq_erase s.header.headers j hj hnd
  have hlentake : (s.header.headers.take j).length = j := by
    rw [List.length_take]
    omega
  have happ : (s.header.headers.take j ++ s.header.headers.drop (j + 1)).get?
      s.currentTab = s.header.headers.get? (s.currentTab + 1) := by
    rw [List.get?_eq_getElem?, List.get?_eq_getElem?]
    rw [List.getElem?_append_right (by rw [hlentake]; omega)]
    rw [hlentake, List.getElem?_drop]
    congr 1
    omega
  have hgad : (s.DeletePage key).GetActivePage
      = (s.header.headers.get? (s.currentTab + 1)).map CommonHeader.key := by
    unfold Skeleton.GetActivePage
    rw [hct', hh, happ]
  by_cases hlast : s.currentTab + 1 < s.header.headers.length
  · right
    have hk2 : s.header.headers[s.currentTab + 1].key
        ≠ s.header.headers[s.currentTab].key := by
      intro he
      have := key_getElem_injective s.header.headers hnd (s.currentTab + 1)
        s.currentTab hlast hctl he
      omega
    rw [hgad, List.get?_eq_getElem?, List.getElem?_eq_getElem hlast]
    unfold Skeleton.GetActivePage
    rw [List.get?_eq_getElem?, List.getElem?_eq_getElem hctl]
    simpa using hk2
  · left
    rw [hgad, List.get?_eq_getElem?, List.getElem?_eq_none (by omega)]
    rfl

/-- Witness for C10: with three tabs `a`,`b`,`c` and `c` active, deleting
`a` keeps the numeric index 2 while the registry shrinks, so the index now
denotes no tab at all; the hypotheses are discharged on this concrete
registry. -/
theorem c10_witness :
    ((((NewSkeleton.AddPage "a" "A" (Page.mk 1)).AddPage "b" "B"
          (Page.mk 2)).AddPage "c" "C" (Page.mk 3)).SetActivePage
        "c").DeletePage "a" = ((((NewSkeleton.AddPage "a" "A"
          (Page.mk 1)).AddPage "b" "B" (Page.mk 2)).AddPage "c" "C"
          (Page.mk 3)).SetActivePage "c").DeletePage "a" ∧
    (((((NewSkeleton.AddPage "a" "A" (Page.mk 1)).AddPage "b" "B"
          (Page.mk 2)).AddPage "c" "C" (Page.mk 3)).SetActivePage
        "c").DeletePage "a").currentTab
      = ((((NewSkeleton.AddPage "a" "A" (Page.mk 1)).AddPage "b" "B"
          (Page.mk 2)).AddPage "c" "C" (Page.mk 3)).SetActivePage
        "c").currentTab ∧
    ((((((NewSkeleton.AddPage "a" "A" (Page.mk 1)).AddPage "b" "B"
          (Page.mk 2)).AddPage "c" "C" (Page.mk 3)).SetActivePage
        "c").DeletePage "a").GetActivePage = none ∨
      (((((NewSkeleton.AddPage "a" "A" (Page.mk 1)).AddPage "b" "B"
          (Page.mk 2)).AddPage "c" "C" (Page.mk 3)).SetActivePage
        "c").DeletePage "a").GetActivePage
        ≠ ((((NewSkeleton.AddPage "a" "A" (Page.mk 1)).AddPage "b" "B"
          (Page.mk 2)).AddPage "c" "C" (Page.mk 3)).SetActivePage
        "c").GetActivePage) := by
  refine ⟨rfl, ?_⟩
  exact c10_delete_frame_effect.2
    ((((NewSkeleton.AddPage "a" "A" (Page.mk 1)).AddPage "b" "B"
        (Page.mk 2)).AddPage "c" "C" (Page.mk 3)).SetActivePage "c")
    "a" 0 (by decide) (by constructor <;> decide) (by decide) (by decide)
    (by decide) (by decide)

end Skel
